import Mathlib

set_option maxRecDepth 8000

-- Shallow embedding of src/news_server/main.py (class NewsServer).
-- A websocket handle is modelled by its Python identity (hid), its
-- closed flag, and the outcome its transport produces when the server
-- awaits send_json on it (ok, ConnectionResetError, or another exception).
-- The WeakSet of websockets is modelled as a List Handle used as a set;
-- the news history is a List NewsItem in insertion order.

structure NewsItem where
  id : Nat
  title : String
  content : String
  category : String
  timestamp : String
deriving DecidableEq

inductive SendOutcome where
  | ok
  | resetError
  | otherError
deriving DecidableEq

structure Handle where
  hid : Nat
  closed : Bool
  sendOutcome : SendOutcome
deriving DecidableEq

structure ServerState where
  websockets : List Handle
  news_history : List NewsItem
deriving DecidableEq

-- self.max_history = 100
def max_history : Nat := 100

-- Python slice lst[start:] for an Int start (negative counts from the end).
def pySliceFrom (l : List NewsItem) (start : Int) : List NewsItem :=
  let n : Int := l.length
  let eff : Int := if start < 0 then max (n + start) 0 else min start n
  l.drop eff.toNat

-- Messages the server sends to a client (send_json payloads).
inductive OutMsg where
  | history (data : List NewsItem)
  | connected (message : String) (client_id : Nat)
  | pong (timestamp : String)
  | news (data : NewsItem)
  | error (message : String)
deriving DecidableEq

-- Parsed JSON messages a client sends (dispatch key: the type field).
inductive ClientMsg where
  | ping
  | get_history (count : Option Int)
  | other (msg_type : String)
deriving DecidableEq

-- NewsServer.handle_client_message: each branch sends exactly one message.
def handle_client_message (st : ServerState) (data : ClientMsg) (now : String) : OutMsg :=
  match data with
  | .ping => .pong now
  | .get_history c =>
      let count : Int := min (c.getD 10) (max_history : Int)
      .history (pySliceFrom st.news_history (-count))
  | .other t => .error ("Unknown message type: " ++ t)

-- WeakSet.discard: remove the handle if present (set semantics).
def wsDiscard (s : List Handle) (ws : Handle) : List Handle :=
  s.filter (fun x => !decide (x = ws))

-- WeakSet.add: insert the handle if absent (set semantics).
def wsAdd (s : List Handle) (ws : Handle) : List Handle :=
  if ws ∈ s then s else ws :: s

-- NewsServer.send_to_client: await ws.send_json(message); on
-- ConnectionResetError remove ws from the registry and re-raise; any
-- other exception propagates to the gather (return_exceptions=True).
def send_to_client (reg : List Handle) (ws : Handle) (_message : OutMsg) :
    List Handle × SendOutcome :=
  match ws.sendOutcome with
  | .ok => (reg, .ok)
  | .resetError => (wsDiscard reg ws, .resetError)
  | .otherError => (reg, .otherError)

-- One gathered send task: record (recipient, message, outcome) and thread
-- the registry through send_to_client.
def send_step (message : OutMsg) (acc : List Handle × List (Handle × OutMsg × SendOutcome))
    (ws : Handle) : List Handle × List (Handle × OutMsg × SendOutcome) :=
  let r := send_to_client acc.1 ws message
  (r.1, acc.2 ++ [(ws, message, r.2)])

-- NewsServer.broadcast_news: early return on empty registry; collect the
-- closed handles, remove them, then send to every open handle, gathering
-- all outcomes (exceptions included) instead of raising them.
def broadcast_news (reg : List Handle) (item : NewsItem) :
    List Handle × List (Handle × OutMsg × SendOutcome) :=
  if reg.isEmpty then (reg, [])
  else
    let disconnected := reg.filter (fun ws => ws.closed)
    let targets := reg.filter (fun ws => !ws.closed)
    let reg1 := disconnected.foldl wsDiscard reg
    targets.foldl (send_step (OutMsg.news item)) (reg1, [])

-- The body of a POST /news request after JSON parsing: data.get of the
-- three fields (None when absent).
structure PostRequest where
  title : Option String
  content : Option String
  category : Option String
deriving DecidableEq

-- Python truthiness test `not x` for a str-or-None value.
def falsy : Option String → Bool
  | none => true
  | some s => s == ""

inductive PostResponse where
  | badRequest (error : String)
  | success (news_id : Nat) (clients_notified : Nat)
deriving DecidableEq

-- main.py lines 169-171: append, then truncate to the last max_history.
def appendNews (news_history : List NewsItem) (item : NewsItem) : List NewsItem :=
  let h1 := news_history ++ [item]
  if h1.length > max_history then h1.drop (h1.length - max_history) else h1

-- NewsServer.post_news on a successfully parsed JSON body.
def post_news (st : ServerState) (data : PostRequest) (now : String) :
    ServerState × PostResponse :=
  if falsy data.title || falsy data.content then
    (st, .badRequest "Title and content are required")
  else
    let news_item : NewsItem :=
      { id := st.news_history.length + 1
        title := (data.title).getD ""
        content := (data.content).getD ""
        category := (data.category).getD "general"
        timestamp := now }
    let news_history2 := appendNews st.news_history news_item
    let websockets2 := (broadcast_news st.websockets news_item).1
    ({ websockets := websockets2, news_history := news_history2 },
      .success news_item.id websockets2.length)

-- n successive valid producer submissions, collecting the returned ids.
def run_submissions : ServerState → Nat → ServerState × List Nat
  | st, 0 => (st, [])
  | st, n + 1 =>
    let r := post_news st { title := some "t", content := some "c", category := none } "ts"
    let rest := run_submissions r.1 n
    (rest.1, (match r.2 with
              | .success i _ => [i]
              | .badRequest _ => []) ++ rest.2)

-- One frame received in the `async for msg in ws` loop. A TEXT frame whose
-- body fails json.loads is text none; PING and PONG frames produce no reply;
-- an ERROR frame breaks out of the loop.
inductive InboundMsg where
  | text (data : Option ClientMsg)
  | pingFrame
  | pongFrame
  | errorFrame
deriving DecidableEq

-- Replies produced for one inbound frame, and whether the loop continues.
def process_inbound (st : ServerState) (now : String) : InboundMsg → List OutMsg × Bool
  | .text none => ([.error "Invalid JSON format"], true)
  | .text (some data) => ([handle_client_message st data now], true)
  | .pingFrame => ([], true)
  | .pongFrame => ([], true)
  | .errorFrame => ([], false)

-- The message loop of websocket_handler over a script of inbound frames.
def session_loop (st : ServerState) (now : String) : List InboundMsg → List OutMsg
  | [] => []
  | msg :: rest =>
    let r := process_inbound st now msg
    if r.2 then r.1 ++ session_loop st now rest else r.1

-- How the Active state is exited: graceful close or transport error end the
-- loop (errorFrame breaks in-band); asyncio.CancelledError can interrupt the
-- loop after some number of frames were handled.
inductive ExitPath where
  | graceful
  | cancelled (afterCount : Nat)
deriving DecidableEq

def processed_msgs (msgs : List InboundMsg) : ExitPath → List InboundMsg
  | .graceful => msgs
  | .cancelled k => msgs.take k

-- The two greeting sends of websocket_handler (history slice then connected).
def initial_messages (ws : Handle) (history : List NewsItem) : List OutMsg :=
  (if history.isEmpty then [] else [OutMsg.history (pySliceFrom history (-10))]) ++
  [OutMsg.connected "Successfully connected to news server" ws.hid]

-- NewsServer.websocket_handler: add the handle, send the greetings, run the
-- loop (possibly interrupted by cancellation), and in the finally block
-- remove the handle. Returns the final registry and the sent messages.
def websocket_handler_run (reg : List Handle) (ws : Handle) (st : ServerState)
    (now : String) (msgs : List InboundMsg) (path : ExitPath) :
    List Handle × List OutMsg :=
  let reg1 := wsAdd reg ws
  let outs := initial_messages ws st.news_history ++
    session_loop st now (processed_msgs msgs path)
  (wsDiscard reg1 ws, outs)

-- Concrete objects used by counterexamples and witnesses.
def item1 : NewsItem := { id := 1, title := "a", content := "b", category := "general", timestamp := "ts" }

def stOne : ServerState := { websockets := [], news_history := [item1] }

def mkItem (n : Nat) : NewsItem :=
  { id := n, title := "t", content := "c", category := "general", timestamp := "ts" }

def hBig : List NewsItem := (List.range 100).map mkItem

def hOpen : Handle := { hid := 1, closed := false, sendOutcome := .ok }

def hClosed : Handle := { hid := 2, closed := true, sendOutcome := .ok }

def hReset : Handle := { hid := 3, closed := false, sendOutcome := .resetError }

def hOther : Handle := { hid := 4, closed := false, sendOutcome := .otherError }

-- Concrete inputs for the C4 witness (the spec scenario where session S1
-- already disconnected and only S2 remains registered).
def reqW : PostRequest := { title := some "C", content := some "z", category := none }

def stW : ServerState := { websockets := [hOpen], news_history := [] }

-- Helper lemmas about the registry operations.

lemma mem_discard {s : List Handle} {ws x : Handle} :
    x ∈ wsDiscard s ws ↔ x ∈ s ∧ x ≠ ws := by
  simp [wsDiscard]

lemma discard_idem (s : List Handle) (ws : Handle) :
    wsDiscard (wsDiscard s ws) ws = wsDiscard s ws := by
  simp [wsDiscard, List.filter_filter]

lemma discard_of_not_mem {s : List Handle} {ws : Handle} (h : ws ∉ s) :
    wsDiscard s ws = s := by
  unfold wsDiscard
  apply List.filter_eq_self.2
  intro a ha
  simp only [Bool.not_eq_true', decide_eq_false_iff_not]
  rintro rfl
  exact h ha

lemma foldl_discard_mem (l : List Handle) (s : List Handle) (x : Handle) :
    x ∈ l.foldl wsDiscard s ↔ x ∈ s ∧ x ∉ l := by
  induction l generalizing s with
  | nil => simp
  | cons a t ih =>
      rw [List.foldl_cons, ih, mem_discard]
      simp only [List.mem_cons]
      tauto

lemma send_to_client_snd (reg : List Handle) (ws : Handle) (m : OutMsg) :
    (send_to_client reg ws m).2 = ws.sendOutcome := by
  cases h : ws.sendOutcome <;> simp [send_to_client, h]

lemma send_to_client_fst_mem (reg : List Handle) (ws x : Handle) (m : OutMsg) :
    x ∈ (send_to_client reg ws m).1 ↔
      x ∈ reg ∧ (ws.sendOutcome = SendOutcome.resetError → x ≠ ws) := by
  cases h : ws.sendOutcome <;> simp [send_to_client, h, mem_discard]

lemma send_fold_snd (m : OutMsg) (targets : List Handle) (r : List Handle)
    (acc : List (Handle × OutMsg × SendOutcome)) :
    (targets.foldl (send_step m) (r, acc)).2 =
      acc ++ targets.map (fun ws => (ws, m, ws.sendOutcome)) := by
  induction targets generalizing r acc with
  | nil => simp
  | cons a t ih =>
      rw [List.foldl_cons]
      have hstep : send_step m (r, acc) a =
          ((send_to_client r a m).1, acc ++ [(a, m, (send_to_client r a m).2)]) := rfl
      rw [hstep, ih, send_to_client_snd]
      simp

lemma send_fold_fst_mem (m : OutMsg) (targets : List Handle) (r : List Handle)
    (acc : List (Handle × OutMsg × SendOutcome)) (x : Handle) :
    x ∈ (targets.foldl (send_step m) (r, acc)).1 ↔
      x ∈ r ∧ ∀ ws ∈ targets, ws.sendOutcome = SendOutcome.resetError → x ≠ ws := by
  induction targets generalizing r acc with
  | nil => simp
  | cons a t ih =>
      rw [List.foldl_cons]
      have hstep : send_step m (r, acc) a =
          ((send_to_client r a m).1, acc ++ [(a, m, (send_to_client r a m).2)]) := rfl
      rw [hstep, ih, send_to_client_fst_mem]
      simp only [List.mem_cons]
      constructor
      · rintro ⟨⟨hx, ha⟩, ht⟩
        refine ⟨hx, ?_⟩
        rintro ws (rfl | hws) hreset
        · exact ha hreset
        · exact ht ws hws hreset
      · rintro ⟨hx, hall⟩
        exact ⟨⟨hx, fun hr => hall a (Or.inl rfl) hr⟩,
          fun ws hws hr => hall ws (Or.inr hws) hr⟩

lemma broadcast_news_cons (a : Handle) (t : List Handle) (item : NewsItem) :
    broadcast_news (a :: t) item =
      ((a :: t).filter (fun ws => !ws.closed)).foldl
        (send_step (OutMsg.news item))
        (((a :: t).filter (fun ws => ws.closed)).foldl wsDiscard (a :: t), []) := rfl

lemma broadcast_news_snd (reg : List Handle) (item : NewsItem) :
    (broadcast_news reg item).2 =
      (reg.filter (fun ws => !ws.closed)).map
        (fun ws => (ws, OutMsg.news item, ws.sendOutcome)) := by
  cases reg with
  | nil => rfl
  | cons a t =>
      rw [broadcast_news_cons, send_fold_snd]
      simp

lemma broadcast_news_fst_mem (reg : List Handle) (item : NewsItem) (x : Handle) :
    x ∈ (broadcast_news reg item).1 ↔
      x ∈ reg ∧ x.closed = false ∧ x.sendOutcome ≠ SendOutcome.resetError := by
  cases reg with
  | nil => simp [broadcast_news]
  | cons a t =>
      rw [broadcast_news_cons, send_fold_fst_mem, foldl_discard_mem]
      constructor
      · rintro ⟨⟨hx, hnd⟩, hall⟩
        have hcl : x.closed = false := by
          by_contra hc
          have hc2 : x.closed = true := by revert hc; cases x.closed <;> simp
          exact hnd (List.mem_filter.2 ⟨hx, hc2⟩)
        refine ⟨hx, hcl, fun hr => ?_⟩
        exact hall x (List.mem_filter.2 ⟨hx, by simp [hcl]⟩) hr rfl
      · rintro ⟨hx, hcl, hr⟩
        refine ⟨⟨hx, fun hmem => ?_⟩, ?_⟩
        · have hc := (List.mem_filter.1 hmem).2
          rw [hcl] at hc
          exact Bool.false_ne_true hc
        · intro ws hws hreset heq
          rw [heq] at hr
          exact hr hreset

-- Helper lemmas about the Python slice operation.

lemma pySliceFrom_neg (l : List NewsItem) (c : Int) (hc : 0 < c) :
    pySliceFrom l (-c) = l.drop (((l.length : Int) - c).toNat) := by
  simp only [pySliceFrom]
  rw [if_pos (by omega)]
  congr 1
  omega

lemma pySliceFrom_nonneg (l : List NewsItem) (s : Int) (hs : 0 ≤ s) :
    pySliceFrom l s = l.drop s.toNat := by
  simp only [pySliceFrom]
  rw [if_neg (by omega)]
  rcases le_total s (l.length : Int) with h | h
  · congr 1
    omega
  · rw [show (min s (l.length : Int)).toNat = l.length by omega]
    rw [List.drop_length, List.drop_eq_nil_of_le (by omega)]

-- Claim theorems.

/-- C1: the claim fails on the code. post_news computes the id of a new item
as len(news_history) + 1; once eviction caps the history at 100 items, every
further submission is assigned id 101. Starting from a fresh server, 102
valid submissions return ids 1, 2, ..., 100, 101, 101: the 101st and the
102nd submissions both return news_id 101, so ids are reused and the
returned sequence is not strictly increasing, while the spec (sections 3,
4.1 and 8) requires strictly increasing, never-reused ids and explicitly
directs implementers to a separate monotonic counter instead of the array
length. -/
theorem C1_news_id_reused_after_eviction :
    (run_submissions { websockets := [], news_history := [] } 102).2.drop 100 =
      [101, 101] ∧
    (run_submissions { websockets := [], news_history := [] } 102).2.take 3 =
      [1, 2, 3] := by
  constructor
  · decide
  · decide

/-- C2 counterexample: with exactly one stored item, a get_history request
with count 0 is answered with a history reply carrying that item, i.e. more
than 0 items, refuting the claim that the reply never holds more than the
requested count for every requested count. -/
theorem C2_count_zero_counterexample :
    ¬ ∀ d, handle_client_message stOne (ClientMsg.get_history (some 0)) "t" =
        OutMsg.history d → d.length ≤ 0 := by
  intro hall
  have h := hall [item1] (by decide)
  exact (by decide : ¬ ([item1].length ≤ 0)) h

/-- C2 (amended): for every request with a positive requested count k
(with the count defaulting to 10 when the field is absent), the history
reply contains at most k items, never more than are currently stored, and
the items form a suffix of the history, i.e. they are taken from the end in
insertion order. The original claim also covered k = 0 and negative k via
the clamp to [0, capacity]; the code only clamps from above
(min(count, max_history)), so for k = 0 the whole history is returned and
the claim fails there (see the counterexample). -/
theorem C2_recent_bounded (st : ServerState) (now : String) (k : Int)
    (hk : 1 ≤ k) :
    ∃ d, handle_client_message st (ClientMsg.get_history (some k)) now =
        OutMsg.history d ∧
      (d.length : Int) ≤ k ∧
      d.length ≤ st.news_history.length ∧
      d.IsSuffix st.news_history ∧
      handle_client_message st (ClientMsg.get_history none) now =
        handle_client_message st (ClientMsg.get_history (some 10)) now := by
  have h100 : (max_history : Int) = 100 := by decide
  refine ⟨pySliceFrom st.news_history (-(min k (max_history : Int))), rfl, ?_, ?_, ?_, rfl⟩
  · rw [pySliceFrom_neg _ _ (by omega), List.length_drop]
    omega
  · rw [pySliceFrom_neg _ _ (by omega), List.length_drop]
    omega
  · rw [pySliceFrom_neg _ _ (by omega)]
    exact List.drop_suffix _ _

/-- C2 witness: a session with one stored item asking for 3 items. -/
theorem C2_recent_bounded_witness :
    ∃ d, handle_client_message stOne (ClientMsg.get_history (some 3)) "t" =
        OutMsg.history d ∧
      (d.length : Int) ≤ 3 ∧
      d.length ≤ stOne.news_history.length ∧
      d.IsSuffix stOne.news_history ∧
      handle_client_message stOne (ClientMsg.get_history none) "t" =
        handle_client_message stOne (ClientMsg.get_history (some 10)) "t" :=
  C2_recent_bounded stOne "t" 3 (by decide)

/-- C3: a get_history request with count 0 is answered with every currently
stored item (the code computes min(0, 100) = 0 and slices history[-0:],
which is the whole list), and a request with a negative count -m is answered
with all stored items except the first m (history[m:]). -/
theorem C3_zero_and_negative_counts (st : ServerState) (now : String) (m : Nat)
    (_hne : st.news_history ≠ []) (hm : 0 < m) :
    handle_client_message st (ClientMsg.get_history (some 0)) now =
      OutMsg.history st.news_history ∧
    handle_client_message st (ClientMsg.get_history (some (-(m : Int)))) now =
      OutMsg.history (st.news_history.drop m) := by
  have h100 : (max_history : Int) = 100 := by decide
  constructor
  · show OutMsg.history
        (pySliceFrom st.news_history (-(min ((0 : Int)) (max_history : Int)))) = _
    rw [show min ((0 : Int)) (max_history : Int) = 0 by decide, neg_zero,
      pySliceFrom_nonneg _ _ le_rfl]
    simp
  · show OutMsg.history
        (pySliceFrom st.news_history (-(min (-(m : Int)) (max_history : Int)))) = _
    rw [show min (-(m : Int)) (max_history : Int) = -(m : Int) by omega, neg_neg,
      pySliceFrom_nonneg _ _ (by omega)]
    congr 1

/-- C3 witness: one stored item, count 0 returns it, count -1 drops it. -/
theorem C3_zero_and_negative_counts_witness :
    handle_client_message stOne (ClientMsg.get_history (some 0)) "t" =
      OutMsg.history stOne.news_history ∧
    handle_client_message stOne (ClientMsg.get_history (some (-((1 : Nat) : Int)))) "t" =
      OutMsg.history (stOne.news_history.drop 1) :=
  C3_zero_and_negative_counts stOne "t" 1 (by decide) (by decide)

/-- C4: on a valid submission (title and content both truthy), post_news
answers success with clients_notified equal to the size the Connection
Registry has at (the end of) the call; the registry after the call is the
registry before it minus the handles pruned by the broadcast, so every
handle that was registered, open, and able to receive is still counted. In
particular, after one of two sessions disconnects (its handle removed by
session teardown), the next submission reports clients_notified 1 (see the
witness). -/
theorem C4_clients_notified (st : ServerState) (req : PostRequest) (now : String)
    (ht : falsy req.title = false) (hc : falsy req.content = false) :
    ∃ st2 nid, post_news st req now = (st2, PostResponse.success nid st2.websockets.length) ∧
      (∀ h, h ∈ st2.websockets → h ∈ st.websockets) ∧
      (∀ h, h ∈ st.websockets → h.closed = false →
        h.sendOutcome ≠ SendOutcome.resetError → h ∈ st2.websockets) := by
  have hcond : (falsy req.title || falsy req.content) = false := by
    rw [ht, hc]
    rfl
  unfold post_news
  rw [hcond]
  simp only [Bool.false_eq_true, if_false]
  refine ⟨_, _, rfl, ?_, ?_⟩
  · intro h hmem
    exact ((broadcast_news_fst_mem _ _ _).1 hmem).1
  · intro h hmem hcl hr
    exact (broadcast_news_fst_mem _ _ _).2 ⟨hmem, hcl, hr⟩

/-- C4 witness: with one open registered handle (the other session already
torn down) a valid submission reports clients_notified 1. -/
theorem C4_clients_notified_witness :
    (∃ st2 nid, post_news stW reqW "ts" =
        (st2, PostResponse.success nid st2.websockets.length) ∧
      (∀ h, h ∈ st2.websockets → h ∈ stW.websockets) ∧
      (∀ h, h ∈ stW.websockets → h.closed = false →
        h.sendOutcome ≠ SendOutcome.resetError → h ∈ st2.websockets)) ∧
    (post_news stW reqW "ts").2 = PostResponse.success 1 1 :=
  ⟨C4_clients_notified stW reqW "ts" (by decide) (by decide), by decide⟩

/-- C5: broadcasting one item over a duplicate-free registry attempts
delivery of the news message exactly for the open handles (so each open
handle is sent the item at most once and closed handles get nothing), every
gathered entry carries the news message for that item, every closed handle
is absent from the registry the broadcast leaves behind, a broadcast over
the empty registry is a no-op returning normally, and every delivery
outcome (failures included) is captured in the gathered results rather than
raised: broadcast_news is a total function whose errors only appear in its
result list. -/
theorem C5_broadcast_delivery (reg : List Handle) (item : NewsItem)
    (hnd : reg.Nodup) :
    ((broadcast_news reg item).2.map (fun e => e.1) =
        reg.filter (fun ws => !ws.closed)) ∧
    (∀ e ∈ (broadcast_news reg item).2, e.2.1 = OutMsg.news item) ∧
    (∀ x, ((broadcast_news reg item).2.map (fun e => e.1)).count x ≤ 1) ∧
    (∀ x ∈ reg, x.closed = true → x ∉ (broadcast_news reg item).1) ∧
    broadcast_news [] item = ([], []) := by
  have hmap : (broadcast_news reg item).2.map (fun e => e.1) =
      reg.filter (fun ws => !ws.closed) := by
    rw [broadcast_news_snd, List.map_map]
    exact List.map_id _
  refine ⟨hmap, ?_, ?_, ?_, rfl⟩
  · intro e he
    rw [broadcast_news_snd] at he
    rcases List.mem_map.1 he with ⟨ws, _, rfl⟩
    rfl
  · intro x
    rw [hmap]
    exact List.nodup_iff_count_le_one.1 (hnd.filter _) x
  · intro x hx hcl hin
    have := ((broadcast_news_fst_mem _ _ _).1 hin).2.1
    rw [hcl] at this
    exact Bool.noConfusion this

/-- C5 witness: a registry holding one open and one closed handle. -/
theorem C5_broadcast_delivery_witness :
    ((broadcast_news [hOpen, hClosed] item1).2.map (fun e => e.1) =
        [hOpen, hClosed].filter (fun ws => !ws.closed)) ∧
    (∀ e ∈ (broadcast_news [hOpen, hClosed] item1).2, e.2.1 = OutMsg.news item1) ∧
    (∀ x, ((broadcast_news [hOpen, hClosed] item1).2.map (fun e => e.1)).count x ≤ 1) ∧
    (∀ x ∈ [hOpen, hClosed], x.closed = true →
        x ∉ (broadcast_news [hOpen, hClosed] item1).1) ∧
    broadcast_news [] item1 = ([], []) :=
  C5_broadcast_delivery [hOpen, hClosed] item1 (by decide)

/-- C6: during broadcast delivery an open handle whose send raises
ConnectionResetError is removed from the registry, an open handle whose
send raises any other exception stays registered, and in both cases the
outcome of the send is captured in the gathered results (broadcast_news
returns it instead of propagating). -/
theorem C6_reset_removed_other_kept (reg : List Handle) (item : NewsItem)
    (h : Handle) (hmem : h ∈ reg) (hopen : h.closed = false) :
    (h.sendOutcome = SendOutcome.resetError → h ∉ (broadcast_news reg item).1) ∧
    (h.sendOutcome = SendOutcome.otherError → h ∈ (broadcast_news reg item).1) ∧
    (h, OutMsg.news item, h.sendOutcome) ∈ (broadcast_news reg item).2 := by
  refine ⟨?_, ?_, ?_⟩
  · intro hr hin
    exact ((broadcast_news_fst_mem _ _ _).1 hin).2.2 hr
  · intro ho
    refine (broadcast_news_fst_mem _ _ _).2 ⟨hmem, hopen, ?_⟩
    rw [ho]
    intro hx
    exact SendOutcome.noConfusion hx
  · rw [broadcast_news_snd]
    refine List.mem_map.2 ⟨h, List.mem_filter.2 ⟨hmem, ?_⟩, rfl⟩
    rw [hopen]
    rfl

/-- C6 witness: a reset-failing handle is dropped while a handle failing
with another exception stays, and both outcomes are gathered. -/
theorem C6_reset_removed_other_kept_witness :
    hReset ∉ (broadcast_news [hReset, hOther] item1).1 ∧
    hOther ∈ (broadcast_news [hReset, hOther] item1).1 ∧
    (hReset, OutMsg.news item1, hReset.sendOutcome) ∈
      (broadcast_news [hReset, hOther] item1).2 :=
  ⟨(C6_reset_removed_other_kept [hReset, hOther] item1 hReset
      (by decide) (by decide)).1 (by decide),
   (C6_reset_removed_other_kept [hReset, hOther] item1 hOther
      (by decide) (by decide)).2.1 (by decide),
   (C6_reset_removed_other_kept [hReset, hOther] item1 hReset
      (by decide) (by decide)).2.2⟩

/-- C7: on every exit path of a session (graceful close, transport error
frame ending the loop, or cancellation at any point of the loop) the
finally block removes the handle from the registry: the final registry is
wsDiscard of the registered set, it never contains the handle, and it does
not depend on the exit path. The removal is idempotent: discarding twice is
discarding once, and discarding an absent handle is a no-op, not an
error. -/
theorem C7_teardown_idempotent (reg : List Handle) (ws : Handle)
    (st : ServerState) (now : String) (msgs : List InboundMsg)
    (p q : ExitPath) :
    (websocket_handler_run reg ws st now msgs p).1 = wsDiscard (wsAdd reg ws) ws ∧
    ws ∉ (websocket_handler_run reg ws st now msgs p).1 ∧
    (websocket_handler_run reg ws st now msgs p).1 =
      (websocket_handler_run reg ws st now msgs q).1 ∧
    wsDiscard (wsDiscard reg ws) ws = wsDiscard reg ws ∧
    (ws ∉ reg → wsDiscard reg ws = reg) := by
  refine ⟨rfl, ?_, rfl, discard_idem reg ws, fun h => discard_of_not_mem h⟩
  intro hin
  exact (mem_discard.1 hin).2 rfl

/-- C7 witness: a session torn down gracefully leaves its handle
unregistered, and discarding a handle that is not registered changes
nothing. -/
theorem C7_teardown_idempotent_witness :
    hOpen ∉ (websocket_handler_run [hClosed] hOpen stOne "t" []
      ExitPath.graceful).1 ∧
    wsDiscard [hClosed] hOpen = [hClosed] :=
  ⟨(C7_teardown_idempotent [hClosed] hOpen stOne "t" []
      ExitPath.graceful ExitPath.graceful).2.1,
   (C7_teardown_idempotent [hClosed] hOpen stOne "t" []
      ExitPath.graceful ExitPath.graceful).2.2.2.2 (by decide)⟩

/-- C8: after every append the history holds at most max_history items and
is a suffix of the old history extended by the new item (so the retained
items are the most recent ones in insertion order); whenever the append
pushes the length beyond the capacity, the history is truncated to exactly
the last max_history items. -/
theorem C8_history_capacity (h : List NewsItem) (item : NewsItem) :
    ((appendNews h item).length ≤ max_history ∧
      (appendNews h item).IsSuffix (h ++ [item])) ∧
    ((h ++ [item]).length > max_history →
      appendNews h item = (h ++ [item]).drop ((h ++ [item]).length - max_history) ∧
      (appendNews h item).length = max_history) := by
  simp only [appendNews]
  split
  next hl =>
    refine ⟨⟨by rw [List.length_drop]; omega, List.drop_suffix _ _⟩,
      fun _ => ⟨rfl, by rw [List.length_drop]; omega⟩⟩
  next hl =>
    exact ⟨⟨by omega, List.suffix_refl _⟩, fun hcond => absurd hcond hl⟩

/-- C8 witness: appending to a history already at capacity 100 truncates to
exactly the last 100 items. -/
theorem C8_history_capacity_witness :
    appendNews hBig (mkItem 200) =
      (hBig ++ [mkItem 200]).drop ((hBig ++ [mkItem 200]).length - max_history) ∧
    (appendNews hBig (mkItem 200)).length = max_history :=
  (C8_history_capacity hBig (mkItem 200)).2 (by decide)

/-- C9: a malformed (non-JSON) text frame is answered with exactly one
error reply reading Invalid JSON format, and the loop continues with the
remaining frames unchanged, so the session stays Active; in particular a
ping sent right after the malformed frame is still answered with a pong. -/
theorem C9_invalid_json (st : ServerState) (now : String) (rest : List InboundMsg) :
    session_loop st now (InboundMsg.text none :: rest) =
      OutMsg.error "Invalid JSON format" :: session_loop st now rest ∧
    session_loop st now [InboundMsg.text none, InboundMsg.text (some ClientMsg.ping)] =
      [OutMsg.error "Invalid JSON format", OutMsg.pong now] :=
  ⟨rfl, rfl⟩

/-- C10: on a new connection whose history is non-empty, the handle is in
the registry right after registration, and the messages the session sends
are exactly a history message holding the last ten stored items (at most 10,
a suffix of the history in insertion order), then the connected
acknowledgment carrying the session identifier, and only then the replies
produced by processing inbound frames, whatever the frames and however the
session later exits. -/
theorem C10_greeting_order (reg : List Handle) (ws : Handle) (st : ServerState)
    (now : String) (msgs : List InboundMsg) (path : ExitPath)
    (hne : st.news_history ≠ []) :
    ws ∈ wsAdd reg ws ∧
    (websocket_handler_run reg ws st now msgs path).2 =
      OutMsg.history (pySliceFrom st.news_history (-10)) ::
      OutMsg.connected "Successfully connected to news server" ws.hid ::
      session_loop st now (processed_msgs msgs path) ∧
    (pySliceFrom st.news_history (-10)).length ≤ 10 ∧
    (pySliceFrom st.news_history (-10)).IsSuffix st.news_history := by
  have hie : st.news_history.isEmpty = false := by
    cases hh : st.news_history
    · exact absurd hh hne
    · rfl
  refine ⟨?_, ?_, ?_, ?_⟩
  · unfold wsAdd
    split
    next h => exact h
    next h => exact List.mem_cons_self _ _
  · show initial_messages ws st.news_history ++
        session_loop st now (processed_msgs msgs path) = _
    unfold initial_messages
    rw [hie]
    rfl
  · rw [pySliceFrom_neg _ _ (by norm_num), List.length_drop]
    omega
  · rw [pySliceFrom_neg _ _ (by norm_num)]
    exact List.drop_suffix _ _

/-- C10 witness: a fresh connection to a server holding one item. -/
theorem C10_greeting_order_witness :
    hOpen ∈ wsAdd [] hOpen ∧
    (websocket_handler_run [] hOpen stOne "t" [] ExitPath.graceful).2 =
      OutMsg.history (pySliceFrom stOne.news_history (-10)) ::
      OutMsg.connected "Successfully connected to news server" hOpen.hid ::
      session_loop stOne "t" (processed_msgs [] ExitPath.graceful) ∧
    (pySliceFrom stOne.news_history (-10)).length ≤ 10 ∧
    (pySliceFrom stOne.news_history (-10)).IsSuffix stOne.news_history :=
  C10_greeting_order [] hOpen stOne "t" [] ExitPath.graceful (by decide)
